import Mathlib

/-!
Verification development for the tgo function-call tracer.

The Go sources are shallowly embedded below.  Conventions used throughout:

* 64-bit machine integers (`uint64` addresses, byte values) are modelled as
  `Nat`; goroutine ids (`int64`) are modelled as `Int`.  None of the verified
  operations performs arithmetic that can overflow a 64-bit quantity, with one
  caveat: a trap address is computed as `CurrentPC - 1`, and `Nat` subtraction
  truncates at zero exactly where `uint64` subtraction would wrap.  A trapped
  thread always has `CurrentPC = breakpointAddr + 1 ≥ 1`, so the two agree on
  every input that can occur, and all theorems below only ever mention the
  trap address through the same expression the code uses.
* Go maps (`map[uint64]*breakpoint`) are modelled as functions
  `Nat → Option _` updated pointwise; the Go zero-value lookup convention for
  `statusStore` is modelled by an association list with a defaulting lookup.
* The debug transport (`lldb.Client`) is modelled as a total byte memory
  `Nat → Nat`.  Transport errors abort the operation in Go and are outside the
  claims verified here, which all concern successful executions.
-/

namespace Tgo

/-- Removes the first occurrence of `id` from the list.  This is the effect of
the Go pattern `append(a[0:i], a[i+1:]...)` used by `breakpoint.RemoveTarget`
and `conditionalBreakpoint.Disassociate`. -/
def removeFirst : List Int → Int → List Int
  | [], _ => []
  | x :: xs, id => if x = id then xs else x :: removeFirst xs id

/-- `strings.HasPrefix` over the characters of the two strings. -/
def strHasPre (pre s : String) : Bool := List.isPrefixOf pre.data s.data

/-- Pointwise update of a map modelled as a function into `Option`. -/
def updMap {β : Type} (m : Nat → Option β) (addr : Nat) (v : Option β) :
    Nat → Option β :=
  fun a => if a = addr then v else m a

/-- Pointwise update of the target's byte memory. -/
def writeByte (mem : Nat → Nat) (addr v : Nat) : Nat → Nat :=
  fun a => if a = addr then v else mem a

/-! ## Breakpoint records (tracee/process.go, type `breakpoint`)

`breakpointInsts = []byte{0xcc}` is a single byte, so `orgInsts` is modelled
as the single original byte at the breakpoint address. -/

/-- `breakpoint` of tracee/process.go: the saved original byte and the list of
interested goroutine ids (`targetGoRoutineIDs`); an empty list means every
goroutine is a target. -/
structure Breakpoint where
  orgInst : Nat
  targetGoRoutineIDs : List Int
  deriving Repr, DecidableEq

/-- `newBreakpoint`: fresh record with no targets. -/
def newBreakpoint (orgInst : Nat) : Breakpoint := ⟨orgInst, []⟩

/-- `breakpoint.AddTarget`: append the goroutine id. -/
def Breakpoint.addTarget (bp : Breakpoint) (id : Int) : Breakpoint :=
  { bp with targetGoRoutineIDs := bp.targetGoRoutineIDs ++ [id] }

/-- `breakpoint.RemoveTarget`: remove the first occurrence of the id. -/
def Breakpoint.removeTarget (bp : Breakpoint) (id : Int) : Breakpoint :=
  { bp with targetGoRoutineIDs := removeFirst bp.targetGoRoutineIDs id }

/-- `breakpoint.NoTarget`. -/
def Breakpoint.noTarget (bp : Breakpoint) : Bool :=
  bp.targetGoRoutineIDs.isEmpty

/-- `breakpoint.Hit`: the id is listed, or the list is empty. -/
def Breakpoint.hitBy (bp : Breakpoint) (id : Int) : Bool :=
  bp.targetGoRoutineIDs.contains id || bp.targetGoRoutineIDs.isEmpty

/-! ## Process-side breakpoint registry (tracee/process.go) -/

/-- The part of `tracee.Process` the breakpoint operations touch: the target's
byte memory (through the debug transport) and the `breakpoints` map. -/
structure Process where
  mem : Nat → Nat
  breakpoints : Nat → Option Breakpoint

/-- `Process.SetConditionalBreakpoint`.  If a record exists, a non-zero id is
appended to its target list; otherwise the original byte is read, the trap
byte `0xcc` is written, and a fresh record (with the id as target when
non-zero) is stored. -/
def Process.setConditionalBreakpoint (p : Process) (addr : Nat) (id : Int) :
    Process :=
  match p.breakpoints addr with
  | some bp =>
    if id ≠ 0 then
      { p with breakpoints := updMap p.breakpoints addr (some (bp.addTarget id)) }
    else p
  | none =>
    let bp0 := newBreakpoint (p.mem addr)
    let bp1 := if id ≠ 0 then bp0.addTarget id else bp0
    { mem := writeByte p.mem addr 0xcc,
      breakpoints := updMap p.breakpoints addr (some bp1) }

/-- `Process.SetBreakpoint` delegates to `SetConditionalBreakpoint` with
goroutine id 0. -/
def Process.setBreakpoint (p : Process) (addr : Nat) : Process :=
  p.setConditionalBreakpoint addr 0

/-- `Process.ClearBreakpoint`: restore the original byte and delete the
record; a no-op when no record exists. -/
def Process.clearBreakpoint (p : Process) (addr : Nat) : Process :=
  match p.breakpoints addr with
  | none => p
  | some bp =>
    { mem := writeByte p.mem addr bp.orgInst,
      breakpoints := updMap p.breakpoints addr none }

/-- `Process.ClearConditionalBreakpoint`: remove the id from the record's
target list, then fully clear the breakpoint when no target remains. -/
def Process.clearConditionalBreakpoint (p : Process) (addr : Nat) (id : Int) :
    Process :=
  match p.breakpoints addr with
  | none => p
  | some bp =>
    let bp' := bp.removeTarget id
    let p' := { p with breakpoints := updMap p.breakpoints addr (some bp') }
    if bp'.noTarget then p'.clearBreakpoint addr else p'

/-- `Process.HitBreakpoint`: the record exists and its condition holds for the
goroutine. -/
def Process.hitBreakpoint (p : Process) (addr : Nat) (id : Int) : Bool :=
  match p.breakpoints addr with
  | none => false
  | some bp => bp.hitBy id

/-- `Process.HasBreakpoint`. -/
def Process.hasBreakpoint (p : Process) (addr : Nat) : Bool :=
  (p.breakpoints addr).isSome

/-- A fresh process right after launch: no breakpoint records; the byte memory
is the launched binary's image `m0`. -/
def Process.init (m0 : Nat → Nat) : Process :=
  { mem := m0, breakpoints := fun _ => none }

/-- The registry operations of tracee/process.go, as data, for stating
invariants that hold across every operation. -/
inductive RegOp : Type
  | set (addr : Nat)
  | setCond (addr : Nat) (id : Int)
  | clear (addr : Nat)
  | clearCond (addr : Nat) (id : Int)

/-- Run one registry operation of tracee/process.go. -/
def Process.applyOp (p : Process) : RegOp → Process
  | .set addr => p.setBreakpoint addr
  | .setCond addr id => p.setConditionalBreakpoint addr id
  | .clear addr => p.clearBreakpoint addr
  | .clearCond addr id => p.clearConditionalBreakpoint addr id

/-- No record's interested set contains goroutine id 0. -/
def Process.noZeroTarget (p : Process) : Prop :=
  ∀ a bp, p.breakpoints a = some bp → (0 : Int) ∉ bp.targetGoRoutineIDs

/-! ## Tracer-side registry (the `Breakpoints` type of the tracer package)

This is the second breakpoint registry found in the sources.  Its physical
set/clear callbacks (`doSet` / `doClear`) act on the transport and always
succeed in this model, so only the logical map is represented. -/

/-- `conditionalBreakpoint`: address plus the associated goroutine ids. -/
structure ConditionalBreakpoint where
  addr : Nat
  associations : List Int
  deriving Repr, DecidableEq

/-- `conditionalBreakpoint.Hit`. -/
def ConditionalBreakpoint.hitBy (bp : ConditionalBreakpoint) (id : Int) : Bool :=
  bp.associations.contains id || bp.associations.isEmpty

/-- `conditionalBreakpoint.NoAssociation`. -/
def ConditionalBreakpoint.noAssociation (bp : ConditionalBreakpoint) : Bool :=
  bp.associations.isEmpty

/-- `conditionalBreakpoint.Associate`. -/
def ConditionalBreakpoint.associate (bp : ConditionalBreakpoint) (id : Int) :
    ConditionalBreakpoint :=
  { bp with associations := bp.associations ++ [id] }

/-- `conditionalBreakpoint.Disassociate`. -/
def ConditionalBreakpoint.disassociate (bp : ConditionalBreakpoint) (id : Int) :
    ConditionalBreakpoint :=
  { bp with associations := removeFirst bp.associations id }

/-- `Breakpoints`: the tracer-side registry (field `setBreakpoints`). -/
structure Breakpoints where
  setBreakpoints : Nat → Option ConditionalBreakpoint

/-- `Breakpoints.Hit`. -/
def Breakpoints.hitAt (b : Breakpoints) (addr : Nat) (id : Int) : Bool :=
  match b.setBreakpoints addr with
  | none => false
  | some bp => bp.hitBy id

/-- `Breakpoints.Exist`. -/
def Breakpoints.existAt (b : Breakpoints) (addr : Nat) : Bool :=
  (b.setBreakpoints addr).isSome

/-- `Breakpoints.Set`: physically set when absent, then store a record with no
conditions (this drops any conditions set before). -/
def Breakpoints.setAt (b : Breakpoints) (addr : Nat) : Breakpoints :=
  { setBreakpoints := updMap b.setBreakpoints addr (some ⟨addr, []⟩) }

/-- `Breakpoints.SetConditional`: if a record exists, associate the id only
when the record already has associations (a no-condition record subsumes the
conditional request); otherwise create a record associated with the id. -/
def Breakpoints.setConditional (b : Breakpoints) (addr : Nat) (id : Int) :
    Breakpoints :=
  match b.setBreakpoints addr with
  | some bp =>
    if bp.noAssociation then b
    else { setBreakpoints := updMap b.setBreakpoints addr (some (bp.associate id)) }
  | none =>
    { setBreakpoints :=
        updMap b.setBreakpoints addr (some ((⟨addr, []⟩ : ConditionalBreakpoint).associate id)) }

/-- `Breakpoints.Clear`. -/
def Breakpoints.clearAt (b : Breakpoints) (addr : Nat) : Breakpoints :=
  match b.setBreakpoints addr with
  | none => b
  | some _ => { setBreakpoints := updMap b.setBreakpoints addr none }

/-- `Breakpoints.ClearConditional`: disassociate the id, then clear the
breakpoint when no association remains. -/
def Breakpoints.clearConditional (b : Breakpoints) (addr : Nat) (id : Int) :
    Breakpoints :=
  match b.setBreakpoints addr with
  | none => b
  | some bp =>
    let bp' := bp.disassociate id
    let b' : Breakpoints := { setBreakpoints := updMap b.setBreakpoints addr (some bp') }
    if bp'.noAssociation then b'.clearAt addr else b'

/-! ## Controller (tracer/controller.go) -/

/-- The view of `tracee.Function` the controller uses: the name and the entry
address (`Value`). -/
structure FunctionB where
  name : String
  value : Nat
  deriving Repr, DecidableEq

/-- The allow-list of runtime functions in `Controller.canSetBreakpoint`. -/
def allowedFuncs : List String :=
  ["runtime.deferproc", "runtime.gopanic", "runtime.gorecover"]

/-- `Controller.canSetBreakpoint`.  The predicate `Function.IsExported` lives
in the binary-parsing layer, outside these sources, so it is passed in as a
parameter.  Note the code checks the prefix `"runtime"`, without a dot. -/
def canSetBreakpoint (isExported : String → Bool) (name : String) : Bool :=
  if allowedFuncs.contains name then true
  else if strHasPre "runtime" name && !isExported name then false
  else if strHasPre "_rt0" name || strHasPre "type." name then false
  else true

/-- Modelled from the spec: `Function.IsExported` is defined in the
binary-parsing layer, which is not among these sources.  The spec describes a
function as exported when its "first letter" is upper-case; for dotted Go
symbol names that is the first letter of the identifier after the last dot. -/
def lastComp : List Char → List Char → List Char
  | [], acc => acc.reverse
  | c :: rest, acc => if c = '.' then lastComp rest [] else lastComp rest (c :: acc)

/-- Modelled from the spec: a name is exported when the first character of its
last dot-separated component is upper-case. -/
def isExportedSpec (name : String) : Bool :=
  match lastComp name.data [] with
  | [] => false
  | c :: _ => c.isUpper

/-- One entry of the tracing point's inside list: a goroutine id and the
stack depth at which it entered. -/
structure GoRoutineInside where
  id : Int
  stackDepth : Int
  deriving Repr, DecidableEq

/-- `tracingPoint`: the anchor function and the goroutines currently inside. -/
structure TracingPoint where
  function : FunctionB
  goRoutinesInside : List GoRoutineInside
  deriving Repr, DecidableEq

/-- `tracingPoint.Hit`: the pc equals the anchor's entry address. -/
def TracingPoint.hitAt (p : TracingPoint) (pc : Nat) : Bool :=
  pc == p.function.value

/-- `tracingPoint.Inside`. -/
def TracingPoint.inside (p : TracingPoint) (goRoutineID : Int) : Bool :=
  p.goRoutinesInside.any (fun g => g.id == goRoutineID)

/-- `tracingPoint.Enter`: record the goroutine and its entry depth unless the
goroutine is already inside. -/
def TracingPoint.enter (p : TracingPoint) (goRoutineID : Int) (stackDepth : Int) :
    TracingPoint :=
  if p.goRoutinesInside.any (fun g => g.id == goRoutineID) then p
  else { p with goRoutinesInside := p.goRoutinesInside ++ [⟨goRoutineID, stackDepth⟩] }

/-- Removal of the first inside-list entry matching both the id and the depth
(the effect of the `append(l[0:i], l[i+1:]...)` in `tracingPoint.Exit`). -/
def removeInside : List GoRoutineInside → Int → Int → List GoRoutineInside
  | [], _, _ => []
  | g :: gs, id, d =>
    if g.id == id && g.stackDepth == d then gs else g :: removeInside gs id d

/-- `tracingPoint.Exit`: remove the goroutine only when the depth also matches
the recorded entry depth (its boolean result is unused by the controller). -/
def TracingPoint.exitAt (p : TracingPoint) (goRoutineID : Int) (stackDepth : Int) :
    TracingPoint :=
  { p with goRoutinesInside := removeInside p.goRoutinesInside goRoutineID stackDepth }

/-- `tracingPoint.Depth`: current depth minus the recorded entry depth, or -1
when the goroutine is not inside. -/
def TracingPoint.depthOf (p : TracingPoint) (goRoutineID : Int) (currDepth : Int) :
    Int :=
  match p.goRoutinesInside.find? (fun g => g.id == goRoutineID) with
  | some g => currDepth - g.stackDepth
  | none => -1

/-- `callingFunction`: one entry of a goroutine's call-stack summary. -/
structure CallingFunction where
  function : FunctionB
  returnAddress : Nat
  usedStackSize : Nat
  deriving Repr, DecidableEq

/-- `goRoutineStatus`. -/
structure GoRoutineStatus where
  callingFunctions : List CallingFunction
  panicking : Bool
  deriving Repr, DecidableEq

/-- `goRoutineStatus.usedStackSize`: the most recent entry's recorded stack
size, or 0 when no function is tracked. -/
def GoRoutineStatus.usedStackSize (s : GoRoutineStatus) : Nat :=
  match s.callingFunctions.getLast? with
  | some cf => cf.usedStackSize
  | none => 0

/-- `statusStore` is a Go map; a missing key reads as the zero value
(`goRoutineStatus{}`). -/
abbrev StatusStore := List (Int × GoRoutineStatus)

/-- Map lookup with the Go zero-value default. -/
def lookupStatus (store : StatusStore) (id : Int) : GoRoutineStatus :=
  match store.find? (fun e => e.1 == id) with
  | some e => e.2
  | none => ⟨[], false⟩

/-- Map insertion: replace the binding if present, append otherwise. -/
def insertStatus : StatusStore → Int → GoRoutineStatus → StatusStore
  | [], id, st => [(id, st)]
  | e :: rest, id, st =>
    if e.1 == id then (id, st) :: rest else e :: insertStatus rest id st

/-- `tracee.GoRoutineInfo` as the controller consumes it.  `deferedBy` holds
the used stack size of the defer handler that is currently running, when the
runtime reports one (`nil` otherwise). -/
structure GoRoutineInfo where
  id : Int
  usedStackSize : Nat
  currentPC : Nat
  currentStackAddr : Nat
  deferedBy : Option Nat
  deriving Repr, DecidableEq

/-- The stack frame data a trap handler obtains from
`Process.StackFrameAt`; the argument lists carry the already-rendered
`name = value` fragments the print routines join. -/
structure StackFrameB where
  function : FunctionB
  returnAddress : Nat
  inputArgs : List String
  outputArgs : List String
  deriving Repr, DecidableEq

/-- Static configuration of a tracing session: the binary's function list
(`Binary.ListFunctions`) and the exported-name predicate of the binary layer. -/
structure Env where
  functions : List FunctionB
  isExported : String → Bool

/-- The mutable state of `tracer.Controller` (plus the process it drives and
the lines written to the output writer).  Registers and the single-step
machinery are outside the model: `Process.SingleStep` restores the original
byte, steps, and rewrites the trap byte, leaving memory and registry as they
were, so it is the identity on this state. -/
structure ControllerState where
  statusStore : StatusStore
  tracingPoint : TracingPoint
  depth : Int
  hitOnce : Bool
  proc : Process
  output : List String

/-- Net effect of `Process.SingleStep` on the modelled state (see above). -/
def Process.singleStep (p : Process) : Process := p

/-- `Controller.isPanicking`: some tracked frame is `runtime.gopanic`. -/
def isPanicking (status : GoRoutineStatus) : Bool :=
  status.callingFunctions.any (fun cf => cf.function.name == "runtime.gopanic")

/-- `Controller.findNumFramesToSkip`: scanning from the top of the summary,
the number of trailing frames whose recorded stack size is at least the defer
handler's; all but one frame is skipped when every recorded size qualifies. -/
def findNumFramesToSkip (callingFuncs : List CallingFunction) (usedStackSize : Nat) :
    Int :=
  match callingFuncs.reverse.findIdx? (fun cf => cf.usedStackSize < usedStackSize) with
  | some k => (k : Int)
  | none => (callingFuncs.length : Int) - 1

/-- The stack-depth computation shared by the call and return handlers: the
base depth, lowered by the panic-unwind adjustment when the goroutine is
panicking and a defer handler is running. -/
def adjustDepth (status : GoRoutineStatus) (deferedBy : Option Nat) (base : Int) :
    Int :=
  if isPanicking status then
    match deferedBy with
    | some ds => base - findNumFramesToSkip status.callingFunctions ds
    | none => base
  else base

/-- `Controller.canPrint`: the goroutine is inside the tracing point and its
relative depth does not exceed the configured depth. -/
def canPrint (c : ControllerState) (goRoutineID : Int) (currStackDepth : Int) :
    Bool :=
  c.tracingPoint.inside goRoutineID &&
    decide (c.tracingPoint.depthOf goRoutineID currStackDepth ≤ c.depth)

/-- `strings.Repeat(" ", depth-1)`; the controller only calls it with a
positive depth. -/
def indentSp (depth : Int) : String :=
  String.mk (List.replicate (depth - 1).toNat ' ')

/-- `%02d` of the goroutine id for the trace lines. -/
def pad2 (id : Int) : String :=
  if 0 ≤ id ∧ id < 10 then "0" ++ toString id else toString id

/-- The line `Controller.printFunctionInput` writes. -/
def inputLine (goRoutineID : Int) (frame : StackFrameB) (depth : Int) : String :=
  indentSp depth ++ "=> (#" ++ pad2 goRoutineID ++ ") " ++ frame.function.name ++
    "(" ++ String.intercalate ", " frame.inputArgs ++ ")"

/-- The line `Controller.printFunctionOutput` writes. -/
def outputLine (goRoutineID : Int) (frame : StackFrameB) (depth : Int) : String :=
  indentSp depth ++ "<= (#" ++ pad2 goRoutineID ++ ") " ++ frame.function.name ++
    "(...) (" ++ String.intercalate ", " frame.outputArgs ++ ")"

/-- `Controller.setBreakpointsExceptTracingPoint`: set a breakpoint on every
listed function that passes the filter and is not the tracing point. -/
def setBreakpointsExceptTracingPoint (env : Env) (c : ControllerState) :
    ControllerState :=
  { c with
    proc := env.functions.foldl
      (fun pr f =>
        if !canSetBreakpoint env.isExported f.name || f.name == c.tracingPoint.function.name
        then pr
        else pr.setBreakpoint f.value)
      c.proc }

/-- The input of one trap-handling step: the goroutine info read for the
trapped thread and the stack frame the handler would read from memory (the
call handler reads it at the function entry, the return handler at the return
address; at most one of the two is consulted per step). -/
structure TrapInput where
  info : GoRoutineInfo
  frame : StackFrameB

/-- `Controller.handleTrapAtUnrelatedBreakpoint`: single-step past the trap. -/
def handleTrapAtUnrelatedBreakpoint (c : ControllerState) (_info : GoRoutineInfo) :
    ControllerState :=
  { c with proc := c.proc.singleStep }

/-- `Controller.handleTrapAtFunctionCall`: compute the adjusted depth; on the
tracing point, install all breakpoints on the first ever hit and record the
goroutine as inside; print the input line when allowed; arm the conditional
return breakpoint; single-step; push the called function onto the goroutine's
summary. -/
def handleTrapAtFunctionCall (env : Env) (c : ControllerState) (input : TrapInput) :
    ControllerState :=
  let info := input.info
  let status := lookupStatus c.statusStore info.id
  let panicking := isPanicking status
  let currStackDepth := adjustDepth status info.deferedBy
    ((status.callingFunctions.length : Int) + 1)
  let c1 :=
    if c.tracingPoint.hitAt (info.currentPC - 1) then
      let c' := if c.hitOnce then c
        else { setBreakpointsExceptTracingPoint env c with hitOnce := true }
      { c' with tracingPoint := c'.tracingPoint.enter info.id currStackDepth }
    else c
  let c2 :=
    if canPrint c1 info.id currStackDepth then
      { c1 with output := c1.output ++ [inputLine info.id input.frame currStackDepth] }
    else c1
  let c3 := { c2 with
    proc := (c2.proc.setConditionalBreakpoint input.frame.returnAddress info.id).singleStep }
  let callingFunc : CallingFunction :=
    ⟨input.frame.function, input.frame.returnAddress, info.usedStackSize⟩
  { c3 with
    statusStore := insertStatus c3.statusStore info.id
      ⟨status.callingFunctions ++ [callingFunc], panicking⟩ }

/-- `Controller.handleTrapAtFunctionReturn`: compute the adjusted depth; when
printing is allowed, print the output line for the function on top of the
summary and, if that function is the tracing point, mark the goroutine as
outside; single-step; drop the conditional return breakpoint; pop the
summary.  (The Go code indexes `callingFunctions[len-1]`; the return branch
only runs when the summary is non-empty, since an empty summary reads as
used stack size 0 and `uint64` values cannot be below 0.) -/
def handleTrapAtFunctionReturn (c : ControllerState) (input : TrapInput) :
    ControllerState :=
  let info := input.info
  let status := lookupStatus c.statusStore info.id
  let panicking := isPanicking status
  let currStackDepth := adjustDepth status info.deferedBy
    (status.callingFunctions.length : Int)
  let c1 :=
    if canPrint c info.id currStackDepth then
      match status.callingFunctions.getLast? with
      | some cf =>
        let c' := { c with
          output := c.output ++ [outputLine info.id input.frame currStackDepth] }
        if c'.tracingPoint.hitAt cf.function.value then
          { c' with tracingPoint := c'.tracingPoint.exitAt info.id currStackDepth }
        else c'
      | none => c
    else c
  let breakpointAddr := info.currentPC - 1
  let c2 := { c1 with
    proc := (c1.proc.singleStep).clearConditionalBreakpoint breakpointAddr info.id }
  { c2 with
    statusStore := insertStatus c2.statusStore info.id
      ⟨status.callingFunctions.dropLast, panicking⟩ }

/-- `Controller.handleTrapEventOfThread`: a trap that fails the breakpoint hit
check is unrelated; otherwise the goroutine's used stack size against the
tracked value decides between return (smaller), unrelated (equal, the
stack-growth case) and call (larger). -/
def handleTrapEventOfThread (env : Env) (c : ControllerState) (input : TrapInput) :
    ControllerState :=
  if c.proc.hitBreakpoint (input.info.currentPC - 1) input.info.id then
    if input.info.usedStackSize < (lookupStatus c.statusStore input.info.id).usedStackSize then
      handleTrapAtFunctionReturn c input
    else if input.info.usedStackSize = (lookupStatus c.statusStore input.info.id).usedStackSize then
      handleTrapAtUnrelatedBreakpoint c input.info
    else
      handleTrapAtFunctionCall env c input
  else
    handleTrapAtUnrelatedBreakpoint c input.info

/-- The controller state right after `LaunchTracee`, `SetTracingPoint tp` and
`SetDepth d0` on a fresh process with memory image `m0`: empty status map,
tracing point with an empty inside list, `hitOnce` unset, and the tracing
point's entry as the only breakpoint. -/
def initState (tp : FunctionB) (d0 : Int) (m0 : Nat → Nat) : ControllerState :=
  { statusStore := []
    tracingPoint := ⟨tp, []⟩
    depth := d0
    hitOnce := false
    proc := (Process.init m0).setBreakpoint tp.value
    output := [] }

/-- States the main loop can reach: the initial state and everything the trap
handler produces from a reachable state. -/
inductive Reach (env : Env) (tp : FunctionB) (d0 : Int) (m0 : Nat → Nat) :
    ControllerState → Prop
  | init : Reach env tp d0 m0 (initState tp d0 m0)
  | step (c : ControllerState) (input : TrapInput) :
      Reach env tp d0 m0 c → Reach env tp d0 m0 (handleTrapEventOfThread env c input)

/-! ## Module data and `ReadInstructions` (tracee/process.go)

`moduleData` reads its fields lazily from target memory; here the module's
`ftab` slice is represented by its logical contents (a failed field read
yields zero values in Go, matching the out-of-range lookup below). -/

/-- One `functab` slot: `{entry, funcoff}`. -/
structure Functab where
  entry : Nat
  funcoff : Nat
  deriving Repr, DecidableEq

/-- The `ftab` portion of a `moduledata` record. -/
structure ModuleFtab where
  ftab : List Functab
  deriving Repr, DecidableEq

/-- `moduleData.ftabLen`. -/
def ModuleFtab.ftabLen (md : ModuleFtab) : Nat := md.ftab.length

/-- `moduleData.functab`: the `(entry, funcoff)` pair at the index; a failed
memory read leaves both values zero. -/
def ModuleFtab.functabAt (md : ModuleFtab) (i : Nat) : Nat × Nat :=
  match md.ftab.get? i with
  | some f => (f.entry, f.funcoff)
  | none => (0, 0)

/-- `Process.findEndAddr`: the entry of the next `ftab` slot, or 0 when there
is no next slot. -/
def findEndAddr (md : ModuleFtab) (ftabIdx : Nat) : Nat :=
  if md.ftabLen ≤ ftabIdx + 1 then 0 else (md.functabAt (ftabIdx + 1)).1

/-- The function record `findFunctionByModuleData` produces: name, entry
(`StartAddr`) and `EndAddr` from `findEndAddr`. -/
structure RTFunction where
  name : String
  startAddr : Nat
  endAddr : Nat
  deriving Repr, DecidableEq

/-- A batch memory read: `ReadMemory(addr, out)` filling `n` bytes, or a
transport failure. -/
abbrev BatchMem := Nat → Nat → Option (List Nat)

/-- The memory reads an operation performed, as `(address, length)` pairs. -/
abbrev ReadLog := List (Nat × Nat)

/-- `Process.ReadInstructions`: refuse (before touching target memory) any
function whose end address is unknown; otherwise read the function body.
The x86 decoding of the returned buffer is done by an external disassembler
library and is outside this model. -/
def readInstructions (mem : BatchMem) (f : RTFunction) :
    Except String (List Nat) × ReadLog :=
  if f.endAddr = 0 then
    (Except.error ("the end address of the function " ++ f.name ++ " is unknown"), [])
  else
    match mem f.startAddr (f.endAddr - f.startAddr) with
    | none => (Except.error "failed to read memory", [(f.startAddr, f.endAddr - f.startAddr)])
    | some buff => (Except.ok buff, [(f.startAddr, f.endAddr - f.startAddr)])

/-! ## Stack frames and lazy argument values (tracee/process.go) -/

/-- `Parameter` as `Process.currentArgs` consumes it: name, byte size of its
type, offset from the beginning of the args list, output flag, and whether
the parameter exists in the debug info. -/
structure Parameter where
  name : String
  size : Nat
  offset : Nat
  isOutput : Bool
  exist : Bool

/-- The debug-info view of a function: name and parameter list. -/
structure DFunction where
  name : String
  parameters : List Parameter

/-- `Argument`: the name and the lazy value parser (`parseValue`), which
yields `none` where the Go closure returns a nil `value`. -/
structure Argument where
  name : String
  parseValueFn : Int → Option String

/-- `Argument.ParseValue`: a nil value renders as the `-` placeholder. -/
def Argument.parseValue (arg : Argument) (depth : Int) : String :=
  match arg.parseValueFn depth with
  | none => arg.name ++ " = -"
  | some s => arg.name ++ " = " ++ s

/-- The value decoder (`valueParser.parseValue`) rendering a raw buffer for a
parameter at a given depth; `none` models a nil decoded value.  It is passed
in abstractly: the claims below hold for every decoder. -/
abbrev ValueDecoder := Parameter → List Nat → Int → Option String

/-- The closure `Process.currentArgs` builds for one parameter: a missing
parameter or a failed memory read yields a nil value (the read failure is
logged and swallowed); otherwise the raw bytes go through the decoder. -/
def mkLazyArg (mem : BatchMem) (decode : ValueDecoder) (base : Nat)
    (p : Parameter) : Argument :=
  ⟨p.name, fun depth =>
    if p.exist then
      match mem (base + p.offset) p.size with
      | none => none
      | some buff => decode p buff depth
    else none⟩

/-- `Process.currentArgs`: partition the parameters into inputs and outputs,
each carrying its lazy parser.  (The Go function's named error return is only
ever assigned inside the lazy closures, after `currentArgs` has already
returned, so it never fails.) -/
def currentArgs (mem : BatchMem) (decode : ValueDecoder)
    (params : List Parameter) (base : Nat) : List Argument × List Argument :=
  ((params.filter (fun p => !p.isOutput)).map (mkLazyArg mem decode base),
   (params.filter (fun p => p.isOutput)).map (mkLazyArg mem decode base))

/-- `binary.LittleEndian.Uint64` over a byte list. -/
def leUint64 : List Nat → Nat
  | [] => 0
  | b :: bs => b + 256 * leUint64 bs

/-- The stack frame `Process.StackFrameAt` returns. -/
structure StackFrameP where
  function : DFunction
  inputArguments : List Argument
  outputArguments : List Argument
  returnAddress : Nat

/-- `Process.StackFrameAt`: resolve the function from `rip`, read the return
address at `rsp`, and build the lazy argument lists starting at `rsp + 8`. -/
def stackFrameAt (mem : BatchMem) (findFunction : Nat → Except String DFunction)
    (decode : ValueDecoder) (rsp rip : Nat) : Except String StackFrameP :=
  match findFunction rip with
  | .error e => .error e
  | .ok fn =>
    match mem rsp 8 with
    | none => .error "failed to read memory"
    | some buff =>
      let args := currentArgs mem decode fn.parameters (rsp + 8)
      .ok ⟨fn, args.1, args.2, leUint64 buff⟩

/-! ## Helper lemmas -/

theorem removeFirst_of_not_mem (l : List Int) (x : Int) (h : x ∉ l) :
    removeFirst l x = l := by
  induction l with
  | nil => rfl
  | cons a as ih =>
    simp only [List.mem_cons, not_or] at h
    simp only [removeFirst, if_neg (Ne.symm h.1)]
    rw [ih h.2]

theorem mem_removeFirst {l : List Int} {x id : Int} (h : x ∈ removeFirst l id) :
    x ∈ l := by
  induction l with
  | nil => simp [removeFirst] at h
  | cons a as ih =>
    simp only [removeFirst] at h
    by_cases ha : a = id
    · rw [if_pos ha] at h
      exact List.mem_cons_of_mem _ h
    · rw [if_neg ha] at h
      rcases List.mem_cons.mp h with h' | h'
      · exact h' ▸ List.mem_cons_self _ _
      · exact List.mem_cons_of_mem _ (ih h')

theorem mem_removeFirst_ne (l : List Int) (x g : Int) (h : g ≠ x) :
    g ∈ removeFirst l x ↔ g ∈ l := by
  induction l with
  | nil => simp [removeFirst]
  | cons a as ih =>
    by_cases ha : a = x
    · subst ha
      simp only [removeFirst, if_pos rfl, List.mem_cons]
      exact ⟨fun hm => Or.inr hm, fun hm => hm.resolve_left h⟩
    · simp only [removeFirst, if_neg ha, List.mem_cons, ih]

theorem mem_removeFirst_append (l : List Int) (x g : Int) :
    g ∈ removeFirst (l ++ [x]) x ↔ g ∈ l := by
  induction l with
  | nil => simp [removeFirst]
  | cons a as ih =>
    by_cases ha : a = x
    · subst ha
      have hrw : removeFirst ((a :: as) ++ [a]) a = as ++ [a] := by
        simp [removeFirst]
      rw [hrw]
      simp [or_comm]
    · simp only [List.cons_append, removeFirst, if_neg ha, List.mem_cons]
      rw [show List.append as [x] = as ++ [x] from rfl, ih]

theorem removeFirst_append_ne_nil (l : List Int) (x : Int) (h : l ≠ []) :
    removeFirst (l ++ [x]) x ≠ [] := by
  cases l with
  | nil => exact absurd rfl h
  | cons a as =>
    by_cases ha : a = x
    · simp [removeFirst, ha]
    · simp [removeFirst, if_neg ha]

/-! ## Claim C6: the breakpoint-eligibility filter -/

/-- The denial condition exactly as claim C6 words it: the name starts with
`runtime.` (with the dot) and is not exported and is not on the allow-list,
or starts with `_rt0`, or starts with `type.`. -/
def claimDeniedC6 (isExported : String → Bool) (name : String) : Bool :=
  (strHasPre "runtime." name && !isExported name && !allowedFuncs.contains name) ||
    strHasPre "_rt0" name || strHasPre "type." name

/-- The denial condition with the one change the code forces: the prefix is
`runtime` without the dot. -/
def amendedDeniedC6 (isExported : String → Bool) (name : String) : Bool :=
  (strHasPre "runtime" name && !isExported name && !allowedFuncs.contains name) ||
    strHasPre "_rt0" name || strHasPre "type." name

/-- Claim C6 as stated is false: the name `runtimex` does not start with
`runtime.`, `_rt0` or `type.`, so the claim calls it eligible, yet
`canSetBreakpoint` denies it (the code tests the prefix `runtime`, without
the dot). -/
theorem C6_counterexample :
    canSetBreakpoint isExportedSpec "runtimex" = false ∧
      claimDeniedC6 isExportedSpec "runtimex" = false := by
  constructor <;> decide

/-- Claim C6, amended: the filter denies exactly the names that start with
`runtime` (no dot required) and are not exported and are not on the
allow-list, or start with `_rt0`, or start with `type.`; every other name is
eligible.  This holds for every exported-name predicate. -/
theorem C6_eligibility_filter (isExported : String → Bool) (name : String) :
    canSetBreakpoint isExported name = !amendedDeniedC6 isExported name := by
  unfold canSetBreakpoint amendedDeniedC6
  by_cases hmem : name ∈ allowedFuncs
  · have hc : allowedFuncs.contains name = true := List.elem_iff.mpr hmem
    rw [if_pos hc, hc]
    simp only [Bool.not_true, Bool.and_false, Bool.false_or]
    fin_cases hmem <;> decide
  · have hc : allowedFuncs.contains name = false :=
      Bool.eq_false_iff.mpr fun h => hmem (List.elem_iff.mp h)
    rw [if_neg (fun h => hmem (List.elem_iff.mp h)), hc]
    simp only [Bool.not_false, Bool.and_true]
    cases h1 : strHasPre "runtime" name <;>
      cases h2 : isExported name <;>
        cases h3 : strHasPre "_rt0" name <;>
          cases h4 : strHasPre "type." name <;> simp

/-- A closed instance of `C6_eligibility_filter`. -/
theorem C6_eligibility_filter_witness :
    canSetBreakpoint isExportedSpec "runtime.gcBgMarkWorker" =
      !amendedDeniedC6 isExportedSpec "runtime.gcBgMarkWorker" :=
  C6_eligibility_filter isExportedSpec "runtime.gcBgMarkWorker"

/-! ## Claim C7: Enter/Exit round trip on the tracing point -/

theorem removeInside_append_self (l : List GoRoutineInside) (r d : Int)
    (h : l.any (fun g => g.id == r) = false) :
    removeInside (l ++ [⟨r, d⟩]) r d = l := by
  induction l with
  | nil => simp [removeInside]
  | cons g gs ih =>
    simp only [List.any_cons, Bool.or_eq_false_iff] at h
    simp only [List.cons_append, removeInside, h.1, Bool.false_and, if_neg Bool.false_ne_true]
    exact congrArg (g :: ·) (ih h.2)

theorem removeInside_append_ne (l : List GoRoutineInside) (r d d' : Int)
    (h : l.any (fun g => g.id == r) = false) (hd : d' ≠ d) :
    removeInside (l ++ [⟨r, d⟩]) r d' = l ++ [⟨r, d⟩] := by
  induction l with
  | nil =>
    have : (d == d') = false := beq_eq_false_iff_ne.mpr fun e => hd e.symm
    simp [removeInside, this]
  | cons g gs ih =>
    simp only [List.any_cons, Bool.or_eq_false_iff] at h
    simp only [List.cons_append, removeInside, h.1, Bool.false_and, if_neg Bool.false_ne_true]
    exact congrArg (g :: ·) (ih h.2)

/-- Claim C7: from a state in which routine `r` is not inside the tracing
point, `Enter(r, d)` followed by `Exit(r, d)` removes `r`, while `Exit(r, d')`
for `d' ≠ d` leaves `r` inside (recursion keeps the routine inside until the
outermost return at the recorded depth). -/
theorem C7_enter_exit_recursion (p : TracingPoint) (r d d' : Int)
    (h : p.inside r = false) :
    ((p.enter r d).exitAt r d).inside r = false ∧
      (d' ≠ d → ((p.enter r d).exitAt r d').inside r = true) := by
  have hany : p.goRoutinesInside.any (fun g => g.id == r) = false := h
  constructor
  · simp only [TracingPoint.enter, hany, if_neg Bool.false_ne_true, TracingPoint.exitAt,
      TracingPoint.inside]
    rw [removeInside_append_self _ _ _ hany]
    exact hany
  · intro hd
    simp only [TracingPoint.enter, hany, if_neg Bool.false_ne_true, TracingPoint.exitAt,
      TracingPoint.inside]
    rw [removeInside_append_ne _ _ _ _ hany hd]
    simp

/-- A closed instance of `C7_enter_exit_recursion` on an empty tracing
point. -/
theorem C7_enter_exit_recursion_witness :
    ((((⟨⟨"main.main", 100⟩, []⟩ : TracingPoint).enter 1 3).exitAt 1 3).inside 1 = false) ∧
      ((((⟨⟨"main.main", 100⟩, []⟩ : TracingPoint).enter 1 3).exitAt 1 4).inside 1 = true) :=
  ⟨(C7_enter_exit_recursion ⟨⟨"main.main", 100⟩, []⟩ 1 3 4 (by decide)).1,
   (C7_enter_exit_recursion ⟨⟨"main.main", 100⟩, []⟩ 1 3 4 (by decide)).2 (by decide)⟩

/-! ## Claim C8: end-address discovery and `ReadInstructions` -/

/-- Claim C8: the end address found through the runtime module-data path is
the entry of the next `ftab` slot, or 0 when the function occupies the last
slot of the module; and `ReadInstructions` returns an error, without reading
target memory, for every function whose end address is 0. -/
theorem C8_end_address_guard (md : ModuleFtab) (i : Nat) (f : RTFunction)
    (mem : BatchMem) :
    (i + 1 < md.ftabLen → findEndAddr md i = (md.functabAt (i + 1)).1) ∧
      (md.ftabLen ≤ i + 1 → findEndAddr md i = 0) ∧
      (f.endAddr = 0 →
        readInstructions mem f =
          (Except.error ("the end address of the function " ++ f.name ++ " is unknown"),
            [])) := by
  refine ⟨fun h => ?_, fun h => ?_, fun h => ?_⟩
  · rw [findEndAddr, if_neg (by omega)]
  · rw [findEndAddr, if_pos h]
  · rw [readInstructions, if_pos h]

/-- A closed instance of `C8_end_address_guard`: on a two-slot module the slot
0 function ends at the entry of slot 1, the slot 1 function has end address 0,
and `ReadInstructions` refuses a function with end address 0 with an empty
read log. -/
theorem C8_end_address_guard_witness :
    findEndAddr ⟨[⟨100, 0⟩, ⟨200, 8⟩]⟩ 0 = 200 ∧
      findEndAddr ⟨[⟨100, 0⟩, ⟨200, 8⟩]⟩ 1 = 0 ∧
      readInstructions (fun _ _ => some []) ⟨"main.last", 200, 0⟩ =
        (Except.error "the end address of the function main.last is unknown", []) :=
  ⟨by
    have h := (C8_end_address_guard ⟨[⟨100, 0⟩, ⟨200, 8⟩]⟩ 0 ⟨"main.last", 200, 0⟩
      (fun _ _ => some [])).1 (by decide)
    rw [h]
    decide,
   (C8_end_address_guard ⟨[⟨100, 0⟩, ⟨200, 8⟩]⟩ 1 ⟨"main.last", 200, 0⟩
      (fun _ _ => some [])).2.1 (by decide),
   (C8_end_address_guard ⟨[⟨100, 0⟩, ⟨200, 8⟩]⟩ 1 ⟨"main.last", 200, 0⟩
      (fun _ _ => some [])).2.2 rfl⟩

/-! ## Claim C9: argument-read failures never abort a stack frame -/

/-- Claim C9: whenever the function resolves and the return-address read
succeeds, `StackFrameAt` succeeds regardless of how the argument reads fare;
an argument whose memory read fails is carried in the frame's argument lists
and renders as the `name = -` placeholder. -/
theorem C9_argument_read_failure (mem : BatchMem)
    (findFunction : Nat → Except String DFunction) (decode : ValueDecoder)
    (rsp rip : Nat) (fn : DFunction) (buff : List Nat) (d : Int)
    (h1 : findFunction rip = .ok fn) (h2 : mem rsp 8 = some buff) :
    stackFrameAt mem findFunction decode rsp rip =
      .ok ⟨fn, (currentArgs mem decode fn.parameters (rsp + 8)).1,
        (currentArgs mem decode fn.parameters (rsp + 8)).2, leUint64 buff⟩ ∧
      ∀ p ∈ fn.parameters, mem (rsp + 8 + p.offset) p.size = none →
        (mkLazyArg mem decode (rsp + 8) p).parseValue d = p.name ++ " = -" ∧
        mkLazyArg mem decode (rsp + 8) p ∈
          (currentArgs mem decode fn.parameters (rsp + 8)).1 ++
            (currentArgs mem decode fn.parameters (rsp + 8)).2 := by
  constructor
  · rw [stackFrameAt, h1, h2]
  · intro p hp hread
    constructor
    · rw [Argument.parseValue]
      have : (mkLazyArg mem decode (rsp + 8) p).parseValueFn d = none := by
        rw [mkLazyArg]
        by_cases he : p.exist
        · simp [he, hread]
        · simp [he]
      rw [this]
      simp [mkLazyArg]
    · rcases ho : p.isOutput with _ | _
      · exact List.mem_append_left _
          (List.mem_map_of_mem _ (List.mem_filter.mpr ⟨hp, by simp [ho]⟩))
      · exact List.mem_append_right _
          (List.mem_map_of_mem _ (List.mem_filter.mpr ⟨hp, by simp [ho]⟩))

/-- A closed instance of `C9_argument_read_failure`: with a memory that only
serves the return-address slot, the frame is still built and the argument
renders as `a = -`. -/
theorem C9_argument_read_failure_witness :
    (stackFrameAt (fun a n => if a = 5 ∧ n = 8 then some [1, 0, 0, 0, 0, 0, 0, 0] else none)
        (fun _ => .ok ⟨"main.f", [⟨"a", 8, 0, false, true⟩]⟩)
        (fun _ _ _ => some "?") 5 300).isOk = true ∧
      (mkLazyArg (fun a n => if a = 5 ∧ n = 8 then some [1, 0, 0, 0, 0, 0, 0, 0] else none)
          (fun _ _ _ => some "?") 13 ⟨"a", 8, 0, false, true⟩).parseValue 1 = "a = -" := by
  have h := C9_argument_read_failure
    (fun a n => if a = 5 ∧ n = 8 then some [1, 0, 0, 0, 0, 0, 0, 0] else none)
    (fun _ => .ok ⟨"main.f", [⟨"a", 8, 0, false, true⟩]⟩)
    (fun _ _ _ => some "?") 5 300 ⟨"main.f", [⟨"a", 8, 0, false, true⟩]⟩
    [1, 0, 0, 0, 0, 0, 0, 0] 1 rfl (by simp)
  refine ⟨?_, ?_⟩
  · rw [h.1]
    rfl
  · exact (h.2 ⟨"a", 8, 0, false, true⟩ (by simp) (by simp)).1

/-! ## Pointwise characterizations of the registry operations -/

theorem setCond_breakpoints (p : Process) (a : Nat) (id : Int) (b : Nat) :
    (p.setConditionalBreakpoint a id).breakpoints b =
      if b = a then
        (match p.breakpoints a with
         | some bp => if id ≠ 0 then some (bp.addTarget id) else some bp
         | none =>
           some (if id ≠ 0 then (newBreakpoint (p.mem a)).addTarget id
             else newBreakpoint (p.mem a)))
      else p.breakpoints b := by
  unfold Process.setConditionalBreakpoint
  cases hcase : p.breakpoints a with
  | none =>
    by_cases hid : id = 0 <;> by_cases hba : b = a <;>
      simp [hcase, hid, hba, updMap]
  | some bp =>
    by_cases hid : id = 0 <;> by_cases hba : b = a <;>
      simp [hcase, hid, hba, updMap]

theorem clearBp_breakpoints (p : Process) (a b : Nat) :
    (p.clearBreakpoint a).breakpoints b =
      if b = a then none else p.breakpoints b := by
  unfold Process.clearBreakpoint
  cases hcase : p.breakpoints a with
  | none =>
    by_cases hba : b = a <;> simp [hcase, hba, updMap]
  | some bp =>
    by_cases hba : b = a <;> simp [hcase, hba, updMap]

theorem clearCond_breakpoints (p : Process) (a : Nat) (id : Int) (b : Nat) :
    (p.clearConditionalBreakpoint a id).breakpoints b =
      if b = a then
        (match p.breakpoints a with
         | none => none
         | some bp =>
           if (bp.removeTarget id).noTarget then none else some (bp.removeTarget id))
      else p.breakpoints b := by
  unfold Process.clearConditionalBreakpoint
  cases hcase : p.breakpoints a with
  | none =>
    by_cases hba : b = a <;> simp [hcase, hba, updMap]
  | some bp =>
    by_cases hno : (bp.removeTarget id).noTarget <;> by_cases hba : b = a <;>
      simp [hcase, hno, hba, updMap, clearBp_breakpoints]

theorem mem_addTarget {bp : Breakpoint} {id g : Int}
    (h : g ∈ (bp.addTarget id).targetGoRoutineIDs) :
    g ∈ bp.targetGoRoutineIDs ∨ g = id := by
  simpa [Breakpoint.addTarget] using h

theorem setCond_self_some {p : Process} {a : Nat} {bp : Breakpoint} (id : Int)
    (h : p.breakpoints a = some bp) :
    (p.setConditionalBreakpoint a id).breakpoints a =
      if id ≠ 0 then some (bp.addTarget id) else some bp := by
  rw [setCond_breakpoints, if_pos rfl, h]

theorem setCond_self_none {p : Process} {a : Nat} (id : Int)
    (h : p.breakpoints a = none) :
    (p.setConditionalBreakpoint a id).breakpoints a =
      some (if id ≠ 0 then (newBreakpoint (p.mem a)).addTarget id
        else newBreakpoint (p.mem a)) := by
  rw [setCond_breakpoints, if_pos rfl, h]

theorem clearCond_self_some {p : Process} {a : Nat} {bp : Breakpoint} (id : Int)
    (h : p.breakpoints a = some bp) :
    (p.clearConditionalBreakpoint a id).breakpoints a =
      if (bp.removeTarget id).noTarget then none else some (bp.removeTarget id) := by
  rw [clearCond_breakpoints, if_pos rfl, h]

theorem clearCond_self_none {p : Process} {a : Nat} (id : Int)
    (h : p.breakpoints a = none) :
    (p.clearConditionalBreakpoint a id).breakpoints a = none := by
  rw [clearCond_breakpoints, if_pos rfl, h]

theorem hitBreakpoint_of_some {p : Process} {a : Nat} {bp : Breakpoint} (id : Int)
    (h : p.breakpoints a = some bp) :
    p.hitBreakpoint a id = bp.hitBy id := by
  unfold Process.hitBreakpoint
  rw [h]

/-! ## Claim C10: `SetBreakpoint` as conditional with goroutine id 0 -/

/-- Claim C10: `SetBreakpoint(addr)` is exactly
`SetConditionalBreakpoint(addr, 0)`; no registry operation ever places
goroutine id 0 in a record's interested set; and `SetBreakpoint` on an
address that already holds a record leaves the registry untouched, so a
conditional record is not promoted to unconditional and routines outside its
set still fail `HitBreakpoint` there. -/
theorem C10_set_breakpoint_delegation (p : Process) (addr : Nat) :
    (p.setBreakpoint addr = p.setConditionalBreakpoint addr 0) ∧
      (∀ op : RegOp, p.noZeroTarget → (p.applyOp op).noZeroTarget) ∧
      (∀ bp, p.breakpoints addr = some bp →
        p.setBreakpoint addr = p ∧
          ∀ r : Int, bp.targetGoRoutineIDs ≠ [] → r ∉ bp.targetGoRoutineIDs →
            (p.setBreakpoint addr).hitBreakpoint addr r = false) := by
  have hzero : ∀ (a : Nat) (id : Int), p.noZeroTarget →
      (p.setConditionalBreakpoint a id).noZeroTarget := by
    intro a id hp b bp hb
    rw [setCond_breakpoints] at hb
    by_cases hba : b = a
    · rw [if_pos hba] at hb
      by_cases hid : id = 0
      · subst hid
        cases hcase : p.breakpoints a with
        | none =>
          simp only [hcase, ne_eq, not_true_eq_false, if_neg, ite_false] at hb
          cases hb
          simp [newBreakpoint]
        | some bp0 =>
          simp only [hcase, ne_eq, not_true_eq_false, if_neg, ite_false] at hb
          cases hb
          exact hp a _ hcase
      · cases hcase : p.breakpoints a with
        | none =>
          simp only [hcase, if_pos hid] at hb
          cases hb
          intro h0
          rcases mem_addTarget h0 with h0 | h0
          · simp [newBreakpoint] at h0
          · exact hid h0.symm
        | some bp0 =>
          simp only [hcase, if_pos hid] at hb
          cases hb
          intro h0
          rcases mem_addTarget h0 with h0 | h0
          · exact hp a bp0 hcase h0
          · exact hid h0.symm
    · rw [if_neg hba] at hb
      exact hp b bp hb
  have hclear : ∀ (a : Nat), p.noZeroTarget → (p.clearBreakpoint a).noZeroTarget := by
    intro a hp b bp hb
    rw [clearBp_breakpoints] at hb
    by_cases hba : b = a
    · rw [if_pos hba] at hb
      cases hb
    · rw [if_neg hba] at hb
      exact hp b bp hb
  refine ⟨rfl, ?_, ?_⟩
  · rintro (⟨a⟩ | ⟨a, id⟩ | ⟨a⟩ | ⟨a, id⟩) hp
    · exact hzero a 0 hp
    · exact hzero a id hp
    · exact hclear a hp
    · intro b bp hb
      rw [Process.applyOp, clearCond_breakpoints] at hb
      by_cases hba : b = a
      · rw [if_pos hba] at hb
        cases hcase : p.breakpoints a with
        | none => simp [hcase] at hb
        | some bp0 =>
          by_cases hno : (bp0.removeTarget id).noTarget
          · simp only [hcase, if_pos hno] at hb
            cases hb
          · simp only [hcase, if_neg hno] at hb
            cases hb
            intro h0
            exact hp a bp0 hcase (mem_removeFirst h0)
      · rw [if_neg hba] at hb
        exact hp b bp hb
  · intro bp hbp
    have hset : p.setBreakpoint addr = p := by
      rw [Process.setBreakpoint, Process.setConditionalBreakpoint, hbp]
      simp
    refine ⟨hset, fun r hne hnotin => ?_⟩
    have h1 : bp.targetGoRoutineIDs.contains r = false :=
      Bool.eq_false_iff.mpr fun h => hnotin (List.elem_iff.mp h)
    have h2 : bp.targetGoRoutineIDs.isEmpty = false :=
      Bool.eq_false_iff.mpr fun h => hne (List.isEmpty_iff.mp h)
    rw [hset]
    simp only [Process.hitBreakpoint, hbp, Breakpoint.hitBy, h1, h2]
    rfl

/-- A closed instance of `C10_set_breakpoint_delegation` on a registry holding
a conditional record for goroutine 5 at address 1. -/
theorem C10_set_breakpoint_delegation_witness :
    ((⟨fun _ => 0, fun a => if a = 1 then some ⟨0, [5]⟩ else none⟩ :
        Process).setBreakpoint 1).hitBreakpoint 1 7 = false ∧
      ((⟨fun _ => 0, fun a => if a = 1 then some ⟨0, [5]⟩ else none⟩ :
        Process).applyOp (.setCond 1 7)).noZeroTarget :=
  ⟨((C10_set_breakpoint_delegation
      ⟨fun _ => 0, fun a => if a = 1 then some ⟨0, [5]⟩ else none⟩ 1).2.2
      ⟨0, [5]⟩ rfl).2 7 (by decide) (by decide),
   (C10_set_breakpoint_delegation
      ⟨fun _ => 0, fun a => if a = 1 then some ⟨0, [5]⟩ else none⟩ 1).2.1
      (.setCond 1 7)
      (by
        intro a bp hb
        by_cases ha : a = 1
        · subst ha
          simp only [if_pos rfl] at hb
          cases hb
          decide
        · simp only [if_neg ha] at hb
          cases hb)⟩

/-! ## Claims C3, C4, C5: conditional set/clear against unconditional records -/

/-- A freshly launched process over an all-zero memory image, used by the
concrete registry scenarios below. -/
def procInit : Process := Process.init fun _ => 0

/-- An empty tracer-side registry. -/
def bpsInit : Breakpoints := ⟨fun _ => none⟩

/-- Whether the record at `a` lists `g` in its interested set. -/
def Process.recordMem (p : Process) (a : Nat) (g : Int) : Bool :=
  match p.breakpoints a with
  | some bp => bp.targetGoRoutineIDs.contains g
  | none => false

/-- Two registry states agree on record existence and on each record's
interested set (as a set of goroutine ids). -/
def registryEquiv (p q : Process) : Prop :=
  (∀ a, (p.breakpoints a).isSome = (q.breakpoints a).isSome) ∧
    ∀ a g, p.recordMem a g = q.recordMem a g

theorem contains_eq_contains_of_iff {l₁ l₂ : List Int} (g : Int)
    (h : g ∈ l₁ ↔ g ∈ l₂) : l₁.contains g = l₂.contains g := by
  cases hc : l₂.contains g
  · exact Bool.eq_false_iff.mpr fun hm =>
      Bool.eq_false_iff.mp hc (List.elem_iff.mpr (h.mp (List.elem_iff.mp hm)))
  · exact List.elem_iff.mpr (h.mpr (List.elem_iff.mp hc))

/-- Claim C3 as stated is false on `Process.SetConditionalBreakpoint`: after
`SetBreakpoint(1)` the record at 1 is unconditional and every routine hits it,
but `SetConditionalBreakpoint(1, 7)` appends 7 to the empty interested set,
so routine 9 no longer hits address 1. -/
theorem C3_counterexample :
    (procInit.setBreakpoint 1).hitBreakpoint 1 9 = true ∧
      ((procInit.setBreakpoint 1).setConditionalBreakpoint 1 7).breakpoints 1 =
        some ⟨0, [7]⟩ ∧
      ((procInit.setBreakpoint 1).setConditionalBreakpoint 1 7).hitBreakpoint 1 9 =
        false := by
  refine ⟨?_, ?_, ?_⟩ <;> decide

/-- Claim C3, amended: `Breakpoints.SetConditional` leaves an unconditional
record unchanged (the registry is untouched and every routine still hits),
exactly as claimed; `Process.SetConditionalBreakpoint`, however, does so only
for routine id 0 — for `r ≠ 0` it appends `r` to the empty interested set,
after which only `r` hits the address. -/
theorem C3_set_conditional_on_unconditional :
    (∀ (b : Breakpoints) (A : Nat) (r : Int) bp,
      b.setBreakpoints A = some bp → bp.noAssociation = true →
        b.setConditional A r = b ∧ ∀ g : Int, (b.setConditional A r).hitAt A g = true) ∧
      (∀ (p : Process) (A : Nat) bp, p.breakpoints A = some bp →
        bp.targetGoRoutineIDs = [] →
          p.setConditionalBreakpoint A 0 = p ∧
            ∀ r : Int, r ≠ 0 →
              (p.setConditionalBreakpoint A r).breakpoints A =
                  some ⟨bp.orgInst, [r]⟩ ∧
                ∀ g : Int, g ≠ r →
                  (p.setConditionalBreakpoint A r).hitBreakpoint A g = false) := by
  constructor
  · intro b A r bp hsome hno
    have heq : b.setConditional A r = b := by
      unfold Breakpoints.setConditional
      rw [hsome]
      simp [hno]
    refine ⟨heq, fun g => ?_⟩
    rw [heq]
    unfold Breakpoints.hitAt
    rw [hsome]
    have : bp.associations.isEmpty = true := hno
    simp [ConditionalBreakpoint.hitBy, this]
  · intro p A bp hsome hT
    constructor
    · unfold Process.setConditionalBreakpoint
      rw [hsome]
      simp
    · intro r hr
      have hA : (p.setConditionalBreakpoint A r).breakpoints A =
          some ⟨bp.orgInst, [r]⟩ := by
        rw [setCond_self_some r hsome, if_pos hr]
        cases bp
        simp_all [Breakpoint.addTarget]
      refine ⟨hA, fun g hg => ?_⟩
      rw [hitBreakpoint_of_some g hA]
      simp [Breakpoint.hitBy, hg]

/-- A closed instance of `C3_set_conditional_on_unconditional`: the
tracer-side registry keeps every routine hitting an unconditional record;
the process-side registry restricts hits to the newly associated routine. -/
theorem C3_set_conditional_on_unconditional_witness :
    ((⟨fun a => if a = 1 then some ⟨1, []⟩ else none⟩ :
        Breakpoints).setConditional 1 7).hitAt 1 3 = true ∧
      ((procInit.setBreakpoint 1).setConditionalBreakpoint 1 4).hitBreakpoint 1 9 =
        false :=
  ⟨(C3_set_conditional_on_unconditional.1
      ⟨fun a => if a = 1 then some ⟨1, []⟩ else none⟩ 1 7 ⟨1, []⟩ rfl rfl).2 3,
   ((C3_set_conditional_on_unconditional.2
      (procInit.setBreakpoint 1) 1 ⟨0, []⟩ (by decide) rfl).2 4 (by decide)).2 9
      (by decide)⟩

/-- Claim C4 as stated is false: with an unconditional record at address 1,
`SetConditional(1, 5)` followed by `ClearConditional(1, 5)` deletes the
record entirely instead of restoring the prior registry state. -/
theorem C4_counterexample :
    ((procInit.setBreakpoint 1).breakpoints 1).isSome = true ∧
      (((procInit.setBreakpoint 1).setConditionalBreakpoint 1 5).clearConditionalBreakpoint
          1 5).breakpoints 1 = none := by
  constructor <;> decide

/-- Claim C4, amended: `SetConditional(A, r)` followed by
`ClearConditional(A, r)` restores record existence and every record's
interested set, provided the record at `A`, if present, has a non-empty
interested set (and does not contain 0 when `r = 0`, which no reachable
registry does); when `A` holds an unconditional record, the pair instead
deletes it. -/
theorem C4_set_clear_round_trip (p : Process) (A : Nat) (r : Int) :
    ((∀ bp, p.breakpoints A = some bp →
        bp.targetGoRoutineIDs ≠ [] ∧ (r = 0 → (0 : Int) ∉ bp.targetGoRoutineIDs)) →
      registryEquiv ((p.setConditionalBreakpoint A r).clearConditionalBreakpoint A r) p) ∧
      (∀ bp, p.breakpoints A = some bp → bp.targetGoRoutineIDs = [] →
        ((p.setConditionalBreakpoint A r).clearConditionalBreakpoint A r).breakpoints A =
          none) := by
  constructor
  · intro hyp
    have key : ∀ a,
        (((p.setConditionalBreakpoint A r).clearConditionalBreakpoint A r).breakpoints a).isSome =
            (p.breakpoints a).isSome ∧
          ∀ g : Int,
            ((p.setConditionalBreakpoint A r).clearConditionalBreakpoint A r).recordMem a g =
              p.recordMem a g := by
      intro a
      by_cases haA : a = A
      · subst haA
        rcases hcase : p.breakpoints a with _ | bp
        · have hq := setCond_self_none r hcase
          have hres :
              ((p.setConditionalBreakpoint a r).clearConditionalBreakpoint a r).breakpoints a =
                none := by
            rw [clearCond_self_some r hq]
            by_cases hr : r = 0
            · subst hr
              simp [Breakpoint.removeTarget, Breakpoint.noTarget, newBreakpoint,
                removeFirst]
            · rw [if_pos hr]
              have hnt : (((newBreakpoint (p.mem a)).addTarget r).removeTarget r).noTarget =
                  true := by
                simp [newBreakpoint, Breakpoint.addTarget, Breakpoint.removeTarget,
                  Breakpoint.noTarget, removeFirst]
              rw [if_pos hnt]
          exact ⟨by rw [hres], fun g => by
            simp only [Process.recordMem, hres, hcase]⟩
        · obtain ⟨hT, h0⟩ := hyp bp hcase
          by_cases hr : r = 0
          · subst hr
            have hq : (p.setConditionalBreakpoint a 0).breakpoints a = some bp := by
              rw [setCond_self_some 0 hcase]
              simp
            have hrm : bp.removeTarget 0 = bp := by
              cases bp with
              | mk o T =>
                simp only [Breakpoint.removeTarget]
                rw [removeFirst_of_not_mem _ _ (h0 rfl)]
            have hnt : bp.noTarget = false :=
              Bool.eq_false_iff.mpr fun h => hT (List.isEmpty_iff.mp h)
            have hres :
                ((p.setConditionalBreakpoint a 0).clearConditionalBreakpoint a 0).breakpoints a =
                  some bp := by
              rw [clearCond_self_some 0 hq, hrm, hnt]
              simp
            exact ⟨by rw [hres], fun g => by
              simp only [Process.recordMem, hres, hcase]⟩
          · have hq : (p.setConditionalBreakpoint a r).breakpoints a =
                some (bp.addTarget r) := by
              rw [setCond_self_some r hcase, if_pos hr]
            have hne : removeFirst (bp.targetGoRoutineIDs ++ [r]) r ≠ [] :=
              removeFirst_append_ne_nil _ _ hT
            have hnt : ((bp.addTarget r).removeTarget r).noTarget = false := by
              cases bp with
              | mk o T =>
                simp only [Breakpoint.addTarget, Breakpoint.removeTarget,
                  Breakpoint.noTarget]
                exact Bool.eq_false_iff.mpr fun h => hne (List.isEmpty_iff.mp h)
            have hres :
                ((p.setConditionalBreakpoint a r).clearConditionalBreakpoint a r).breakpoints a =
                  some ((bp.addTarget r).removeTarget r) := by
              rw [clearCond_self_some r hq, hnt]
              simp
            refine ⟨by simp [hres], fun g => ?_⟩
            simp only [Process.recordMem, hres, hcase]
            cases bp with
            | mk o T =>
              simp only [Breakpoint.addTarget, Breakpoint.removeTarget]
              exact contains_eq_contains_of_iff g (mem_removeFirst_append T r g)
      · have hres :
            ((p.setConditionalBreakpoint A r).clearConditionalBreakpoint A r).breakpoints a =
              p.breakpoints a := by
          rw [clearCond_breakpoints, if_neg haA, setCond_breakpoints, if_neg haA]
        exact ⟨by rw [hres], fun g => by simp only [Process.recordMem, hres]⟩
    exact ⟨fun a => (key a).1, fun a g => (key a).2 g⟩
  · intro bp hsome hT
    by_cases hr : r = 0
    · subst hr
      have hq : (p.setConditionalBreakpoint A 0).breakpoints A = some bp := by
        rw [setCond_self_some 0 hsome]
        simp
      have hnt : (bp.removeTarget 0).noTarget = true := by
        cases bp
        simp_all [Breakpoint.removeTarget, Breakpoint.noTarget, removeFirst]
      rw [clearCond_self_some 0 hq, if_pos hnt]
    · have hq : (p.setConditionalBreakpoint A r).breakpoints A =
          some (bp.addTarget r) := by
        rw [setCond_self_some r hsome, if_pos hr]
      have hnt : ((bp.addTarget r).removeTarget r).noTarget = true := by
        cases bp
        simp_all [Breakpoint.addTarget, Breakpoint.removeTarget, Breakpoint.noTarget,
          removeFirst]
      rw [clearCond_self_some r hq, if_pos hnt]

/-- A closed instance of `C4_set_clear_round_trip`: the pair restores a
registry whose record at address 1 is conditional on goroutine 5. -/
theorem C4_set_clear_round_trip_witness :
    registryEquiv
      (((⟨fun _ => 0, fun a => if a = 1 then some ⟨0, [5]⟩ else none⟩ :
          Process).setConditionalBreakpoint 1 5).clearConditionalBreakpoint 1 5)
      ⟨fun _ => 0, fun a => if a = 1 then some ⟨0, [5]⟩ else none⟩ :=
  (C4_set_clear_round_trip
      ⟨fun _ => 0, fun a => if a = 1 then some ⟨0, [5]⟩ else none⟩ 1 5).1
    (by
      intro bp hb
      simp only [if_pos rfl] at hb
      cases hb
      exact ⟨by decide, by decide⟩)

/-- Claim C5 as stated is false: a record created unconditionally (by
`SetBreakpoint`, empty interested set) is removed by a conditional clear for
any routine id, in both registries found in the sources. -/
theorem C5_counterexample :
    ((procInit.setBreakpoint 1).breakpoints 1).isSome = true ∧
      ((procInit.setBreakpoint 1).clearConditionalBreakpoint 1 7).breakpoints 1 = none ∧
      ((bpsInit.setAt 1).clearConditional 1 7).setBreakpoints 1 = none := by
  refine ⟨?_, ?_, ?_⟩ <;> decide

/-- Claim C5, amended: `clear_conditional(A, r)` removes `r` from the record's
interested set and performs a full clear exactly when the resulting set is
empty — regardless of whether the record was created conditionally.  Neither
registry tracks how a record was created, so an unconditional record (empty
set) is removed by `clear_conditional` for any routine id; clearing at an
address without a record is a no-op. -/
theorem C5_clear_conditional_full_clear :
    (∀ (p : Process) (A : Nat) (r : Int) bp, p.breakpoints A = some bp →
      (p.clearConditionalBreakpoint A r).breakpoints A =
        if removeFirst bp.targetGoRoutineIDs r = [] then none
        else some ⟨bp.orgInst, removeFirst bp.targetGoRoutineIDs r⟩) ∧
      (∀ (p : Process) (A : Nat) (r : Int), p.breakpoints A = none →
        p.clearConditionalBreakpoint A r = p) ∧
      (∀ (b : Breakpoints) (A : Nat) (r : Int) bp, b.setBreakpoints A = some bp →
        (b.clearConditional A r).setBreakpoints A =
          if removeFirst bp.associations r = [] then none
          else some ⟨bp.addr, removeFirst bp.associations r⟩) := by
  refine ⟨?_, ?_, ?_⟩
  · intro p A r bp hsome
    rw [clearCond_self_some r hsome]
    cases bp with
    | mk o T =>
      simp only [Breakpoint.removeTarget, Breakpoint.noTarget]
      by_cases he : removeFirst T r = [] <;> simp [he]
  · intro p A r hnone
    unfold Process.clearConditionalBreakpoint
    rw [hnone]
  · intro b A r bp hsome
    cases bp with
    | mk ad assoc =>
      unfold Breakpoints.clearConditional
      rw [hsome]
      simp only [ConditionalBreakpoint.disassociate, ConditionalBreakpoint.noAssociation]
      by_cases he : removeFirst assoc r = []
      · simp [he, Breakpoints.clearAt, updMap]
      · simp [he, updMap]

/-- A closed instance of `C5_clear_conditional_full_clear`: clearing
goroutine 7's condition at an address holding an unconditional record deletes
the record. -/
theorem C5_clear_conditional_full_clear_witness :
    ((procInit.setBreakpoint 1).clearConditionalBreakpoint 1 7).breakpoints 1 = none :=
  (C5_clear_conditional_full_clear.1 (procInit.setBreakpoint 1) 1 7 ⟨0, []⟩
    (by decide)).trans (by decide)

/-! ## Claim C1: trap classification by used stack size -/

/-- Claim C1: when a trap passes the breakpoint hit check, the goroutine's
current used stack size is compared with the tracked value — strictly greater
is handled as a function call, strictly less as a function return, and equal
leaves the controller state entirely unchanged (single-stepped past: no
print, no change to the routine's calling functions); an unknown routine
reads as tracked value 0. -/
theorem C1_trap_classification (env : Env) (c : ControllerState) (input : TrapInput)
    (hhit : c.proc.hitBreakpoint (input.info.currentPC - 1) input.info.id = true) :
    ((lookupStatus c.statusStore input.info.id).usedStackSize < input.info.usedStackSize →
      handleTrapEventOfThread env c input = handleTrapAtFunctionCall env c input) ∧
      (input.info.usedStackSize < (lookupStatus c.statusStore input.info.id).usedStackSize →
        handleTrapEventOfThread env c input = handleTrapAtFunctionReturn c input) ∧
      (input.info.usedStackSize = (lookupStatus c.statusStore input.info.id).usedStackSize →
        handleTrapEventOfThread env c input = c) ∧
      (∀ (store : StatusStore) (id : Int), store.find? (fun e => e.1 == id) = none →
        (lookupStatus store id).usedStackSize = 0) := by
  refine ⟨fun h => ?_, fun h => ?_, fun h => ?_, fun store id h => ?_⟩
  · unfold handleTrapEventOfThread
    rw [if_pos hhit, if_neg (by omega), if_neg (by omega)]
  · unfold handleTrapEventOfThread
    rw [if_pos hhit, if_pos h]
  · unfold handleTrapEventOfThread
    rw [if_pos hhit, if_neg (by omega), if_pos h]
    rfl
  · simp [lookupStatus, h, GoRoutineStatus.usedStackSize]

/-- Concrete inputs shared by the controller witnesses below. -/
def tpMain : FunctionB := ⟨"main.main", 100⟩

def envW : Env := ⟨[⟨"main.main", 100⟩, ⟨"main.fib", 200⟩], isExportedSpec⟩

def zeroMem : Nat → Nat := fun _ => 0

/-- A closed instance of `C1_trap_classification`: in the initial state a trap
at the tracing point with used stack size equal to the tracked value (0) is
single-stepped past with no state change. -/
theorem C1_trap_classification_witness :
    handleTrapEventOfThread envW (initState tpMain 1 zeroMem)
        ⟨⟨1, 0, 101, 5000, none⟩, ⟨⟨"main.main", 100⟩, 500, [], []⟩⟩ =
      initState tpMain 1 zeroMem :=
  (C1_trap_classification envW (initState tpMain 1 zeroMem)
      ⟨⟨1, 0, 101, 5000, none⟩, ⟨⟨"main.main", 100⟩, 500, [], []⟩⟩
      (by decide)).2.2.1 (by decide)

/-! ## Claim C2: breakpoint installation on the first tracing-point hit -/

theorem setCond_isSome_mono (p : Process) (addr : Nat) (id : Int) (a : Nat)
    (h : (p.breakpoints a).isSome = true) :
    ((p.setConditionalBreakpoint addr id).breakpoints a).isSome = true := by
  rw [setCond_breakpoints]
  by_cases hba : a = addr
  · rw [if_pos hba]
    cases hc : p.breakpoints addr with
    | none => simp
    | some bp => by_cases hid : id ≠ 0 <;> simp [hid]
  · rw [if_neg hba]
    exact h

theorem setCond_isSome_self (p : Process) (addr : Nat) (id : Int) :
    ((p.setConditionalBreakpoint addr id).breakpoints addr).isSome = true := by
  rw [setCond_breakpoints, if_pos rfl]
  cases hc : p.breakpoints addr with
  | none => simp
  | some bp => by_cases hid : id ≠ 0 <;> simp [hid]

theorem setCond_breakpoints_ne (p : Process) (addr : Nat) (id : Int) (a : Nat)
    (h : a ≠ addr) :
    (p.setConditionalBreakpoint addr id).breakpoints a = p.breakpoints a := by
  rw [setCond_breakpoints, if_neg h]

theorem clearCond_breakpoints_ne (p : Process) (addr : Nat) (id : Int) (a : Nat)
    (h : a ≠ addr) :
    (p.clearConditionalBreakpoint addr id).breakpoints a = p.breakpoints a := by
  rw [clearCond_breakpoints, if_neg h]

theorem foldl_setBp_isSome_mono (g : FunctionB → Bool) (fs : List FunctionB)
    (pr : Process) (a : Nat) (h : (pr.breakpoints a).isSome = true) :
    ((fs.foldl (fun pr f => if g f then pr else pr.setBreakpoint f.value) pr).breakpoints
        a).isSome = true := by
  induction fs generalizing pr with
  | nil => exact h
  | cons f fs ih =>
    simp only [List.foldl_cons]
    by_cases hf : g f = true
    · rw [if_pos hf]
      exact ih pr h
    · rw [if_neg hf]
      exact ih _ (setCond_isSome_mono _ _ _ _ h)

theorem foldl_setBp_isSome_mem (g : FunctionB → Bool) (fs : List FunctionB)
    (pr : Process) (f0 : FunctionB) (hf : f0 ∈ fs) (hg : g f0 = false) :
    ((fs.foldl (fun pr f => if g f then pr else pr.setBreakpoint f.value) pr).breakpoints
        f0.value).isSome = true := by
  induction fs generalizing pr with
  | nil => cases hf
  | cons f fs ih =>
    simp only [List.foldl_cons]
    rcases List.mem_cons.mp hf with rfl | hmem
    · rw [if_neg (by simp [hg])]
      exact foldl_setBp_isSome_mono g fs _ _ (setCond_isSome_self _ _ _)
    · by_cases hgf : g f = true
      · rw [if_pos hgf]
        exact ih pr hmem
      · rw [if_neg hgf]
        exact ih _ hmem

theorem install_proc_isSome (env : Env) (c : ControllerState) (f0 : FunctionB)
    (hf : f0 ∈ env.functions)
    (hcan : canSetBreakpoint env.isExported f0.name = true)
    (hname : (f0.name == c.tracingPoint.function.name) = false) :
    (((setBreakpointsExceptTracingPoint env c).proc.breakpoints f0.value).isSome) =
      true := by
  exact foldl_setBp_isSome_mem _ _ _ _ hf (by simp [hcan, hname])

theorem enter_function (p : TracingPoint) (id d : Int) :
    (p.enter id d).function = p.function := by
  unfold TracingPoint.enter
  split <;> rfl

theorem fr_hitOnce (c : ControllerState) (input : TrapInput) :
    (handleTrapAtFunctionReturn c input).hitOnce = c.hitOnce := by
  simp only [handleTrapAtFunctionReturn]
  repeat' split
  all_goals rfl

theorem fr_tpfun (c : ControllerState) (input : TrapInput) :
    (handleTrapAtFunctionReturn c input).tracingPoint.function =
      c.tracingPoint.function := by
  simp only [handleTrapAtFunctionReturn]
  repeat' split
  all_goals rfl

theorem fr_proc (c : ControllerState) (input : TrapInput) :
    (handleTrapAtFunctionReturn c input).proc =
      c.proc.clearConditionalBreakpoint (input.info.currentPC - 1) input.info.id := by
  simp only [handleTrapAtFunctionReturn]
  repeat' split
  all_goals rfl

theorem fc_tpfun (env : Env) (c : ControllerState) (input : TrapInput) :
    (handleTrapAtFunctionCall env c input).tracingPoint.function =
      c.tracingPoint.function := by
  simp only [handleTrapAtFunctionCall]
  repeat' split
  all_goals simp [enter_function, setBreakpointsExceptTracingPoint]

theorem fc_proc_hitOnce_true (env : Env) (c : ControllerState) (input : TrapInput)
    (h : c.hitOnce = true) :
    (handleTrapAtFunctionCall env c input).proc =
        c.proc.setConditionalBreakpoint input.frame.returnAddress input.info.id ∧
      (handleTrapAtFunctionCall env c input).hitOnce = true := by
  simp only [handleTrapAtFunctionCall]
  rw [if_pos h]
  repeat' split
  all_goals exact ⟨rfl, h⟩

theorem fc_proc_first (env : Env) (c : ControllerState) (input : TrapInput)
    (hc : c.hitOnce = false)
    (htp : c.tracingPoint.hitAt (input.info.currentPC - 1) = true) :
    (handleTrapAtFunctionCall env c input).proc =
        ((setBreakpointsExceptTracingPoint env c).proc).setConditionalBreakpoint
          input.frame.returnAddress input.info.id ∧
      (handleTrapAtFunctionCall env c input).hitOnce = true := by
  simp only [handleTrapAtFunctionCall]
  rw [if_pos htp, if_neg (show ¬c.hitOnce = true by rw [hc]; exact Bool.false_ne_true)]
  repeat' split
  all_goals exact ⟨rfl, rfl⟩

/-- The strengthened inductive invariant behind claim C2: the tracing-point
anchor never changes, and before the first hit the anchor's entry is the only
breakpoint and no goroutine has any tracked calling function. -/
def InvC2 (tp : FunctionB) (c : ControllerState) : Prop :=
  c.tracingPoint.function = tp ∧
    (c.hitOnce = false →
      (∀ a : Nat, ((c.proc.breakpoints a).isSome = true) ↔ a = tp.value) ∧
        ∀ id : Int, (lookupStatus c.statusStore id).callingFunctions = [])

theorem hitBreakpoint_isSome {p : Process} {a : Nat} {id : Int}
    (h : p.hitBreakpoint a id = true) : (p.breakpoints a).isSome = true := by
  unfold Process.hitBreakpoint at h
  cases hb : p.breakpoints a with
  | none => rw [hb] at h; cases h
  | some bp => simp

theorem reach_inv (env : Env) (tp : FunctionB) (d0 : Int) (m0 : Nat → Nat)
    (c : ControllerState) (h : Reach env tp d0 m0 c) : InvC2 tp c := by
  induction h with
  | init =>
    refine ⟨rfl, fun _ => ⟨fun a => ?_, fun id => rfl⟩⟩
    show (((Process.init m0).setBreakpoint tp.value).breakpoints a).isSome = true ↔
      a = tp.value
    rw [Process.setBreakpoint, setCond_breakpoints]
    by_cases ha : a = tp.value
    · simp [ha, Process.init]
    · simp [ha, Process.init]
  | step c input hrc ih =>
    obtain ⟨ihf, ihinv⟩ := ih
    unfold handleTrapEventOfThread
    by_cases hhit :
        c.proc.hitBreakpoint (input.info.currentPC - 1) input.info.id = true
    · rw [if_pos hhit]
      by_cases hlt : input.info.usedStackSize <
          (lookupStatus c.statusStore input.info.id).usedStackSize
      · rw [if_pos hlt]
        have hho : c.hitOnce = true := by
          cases hB : c.hitOnce
          · have hempty := (ihinv hB).2 input.info.id
            have hz : (lookupStatus c.statusStore input.info.id).usedStackSize = 0 := by
              simp [GoRoutineStatus.usedStackSize, hempty]
            omega
          · rfl
        refine ⟨(fr_tpfun c input).trans ihf, fun hfo => ?_⟩
        rw [fr_hitOnce, hho] at hfo
        cases hfo
      · rw [if_neg hlt]
        by_cases heq : input.info.usedStackSize =
            (lookupStatus c.statusStore input.info.id).usedStackSize
        · rw [if_pos heq]
          exact ⟨ihf, ihinv⟩
        · rw [if_neg heq]
          cases hB : c.hitOnce
          · have honly := (ihinv hB).1
            have hpc : input.info.currentPC - 1 = tp.value :=
              (honly _).mp (hitBreakpoint_isSome hhit)
            have htp : c.tracingPoint.hitAt (input.info.currentPC - 1) = true := by
              unfold TracingPoint.hitAt
              rw [ihf, hpc]
              simp
            obtain ⟨_, hhone⟩ := fc_proc_first env c input hB htp
            refine ⟨(fc_tpfun env c input).trans ihf, fun hf2 => ?_⟩
            rw [hhone] at hf2
            cases hf2
          · obtain ⟨_, hhone⟩ := fc_proc_hitOnce_true env c input hB
            refine ⟨(fc_tpfun env c input).trans ihf, fun hf2 => ?_⟩
            rw [hhone] at hf2
            cases hf2
    · rw [if_neg hhit]
      exact ⟨ihf, ihinv⟩

/-- Claim C2: along every reachable controller state, (i) before the first
tracing-point hit the tracing point's entry is the only address holding a
breakpoint; (ii) the first passing call-classified trap sets `hitOnce` and
installs a breakpoint on every eligible function other than the tracing
point; (iii) once `hitOnce` is set it stays set and no later step installs
breakpoints in bulk — a step changes the registry at most at the armed return
address and at the trapped address. -/
theorem C2_first_hit_installation (env : Env) (tp : FunctionB) (d0 : Int)
    (m0 : Nat → Nat) (c : ControllerState) (hreach : Reach env tp d0 m0 c) :
    (c.hitOnce = false →
      ∀ a : Nat, ((c.proc.breakpoints a).isSome = true) ↔ a = tp.value) ∧
      (∀ input : TrapInput,
        c.hitOnce = false →
        c.proc.hitBreakpoint (input.info.currentPC - 1) input.info.id = true →
        (lookupStatus c.statusStore input.info.id).usedStackSize <
          input.info.usedStackSize →
        (handleTrapEventOfThread env c input).hitOnce = true ∧
          ∀ f ∈ env.functions, canSetBreakpoint env.isExported f.name = true →
            f.name ≠ tp.name →
            (((handleTrapEventOfThread env c input).proc.breakpoints f.value).isSome =
              true)) ∧
      (∀ input : TrapInput, c.hitOnce = true →
        (handleTrapEventOfThread env c input).hitOnce = true ∧
          ∀ a : Nat, a ≠ input.frame.returnAddress → a ≠ input.info.currentPC - 1 →
            (handleTrapEventOfThread env c input).proc.breakpoints a =
              c.proc.breakpoints a) := by
  obtain ⟨ihf, ihinv⟩ := reach_inv env tp d0 m0 c hreach
  refine ⟨fun hfo => (ihinv hfo).1, ?_, ?_⟩
  · intro input hfo hhit hgt
    have hstep : handleTrapEventOfThread env c input =
        handleTrapAtFunctionCall env c input := by
      unfold handleTrapEventOfThread
      rw [if_pos hhit, if_neg (by omega), if_neg (by omega)]
    have hpc : input.info.currentPC - 1 = tp.value :=
      ((ihinv hfo).1 _).mp (hitBreakpoint_isSome hhit)
    have htp : c.tracingPoint.hitAt (input.info.currentPC - 1) = true := by
      unfold TracingPoint.hitAt
      rw [ihf, hpc]
      simp
    obtain ⟨hproc, hhone⟩ := fc_proc_first env c input hfo htp
    refine ⟨by rw [hstep]; exact hhone, fun f hf hcan hname => ?_⟩
    rw [hstep, hproc]
    apply setCond_isSome_mono
    apply install_proc_isSome env c f hf hcan
    rw [ihf]
    exact beq_eq_false_iff_ne.mpr hname
  · intro input hho
    unfold handleTrapEventOfThread
    by_cases hhit :
        c.proc.hitBreakpoint (input.info.currentPC - 1) input.info.id = true
    · rw [if_pos hhit]
      by_cases hlt : input.info.usedStackSize <
          (lookupStatus c.statusStore input.info.id).usedStackSize
      · rw [if_pos hlt]
        refine ⟨by rw [fr_hitOnce]; exact hho, fun a ha1 ha2 => ?_⟩
        rw [fr_proc]
        exact clearCond_breakpoints_ne _ _ _ _ ha2
      · rw [if_neg hlt]
        by_cases heq : input.info.usedStackSize =
            (lookupStatus c.statusStore input.info.id).usedStackSize
        · rw [if_pos heq]
          exact ⟨hho, fun a _ _ => rfl⟩
        · rw [if_neg heq]
          obtain ⟨hproc, hhone⟩ := fc_proc_hitOnce_true env c input hho
          refine ⟨hhone, fun a ha1 ha2 => ?_⟩
          rw [hproc]
          exact setCond_breakpoints_ne _ _ _ _ ha1
    · rw [if_neg hhit]
      exact ⟨hho, fun a _ _ => rfl⟩

/-- A closed instance of `C2_first_hit_installation`: from the initial state,
the first passing call-classified trap at the tracing point sets `hitOnce`
and installs a breakpoint on the eligible function `main.fib`. -/
theorem C2_first_hit_installation_witness :
    (handleTrapEventOfThread envW (initState tpMain 1 zeroMem)
        ⟨⟨1, 64, 101, 5000, none⟩, ⟨⟨"main.main", 100⟩, 500, [], []⟩⟩).hitOnce = true ∧
      ((handleTrapEventOfThread envW (initState tpMain 1 zeroMem)
          ⟨⟨1, 64, 101, 5000, none⟩, ⟨⟨"main.main", 100⟩, 500, [], []⟩⟩).proc.breakpoints
        200).isSome = true := by
  have h := (C2_first_hit_installation envW tpMain 1 zeroMem
    (initState tpMain 1 zeroMem) (Reach.init)).2.1
    ⟨⟨1, 64, 101, 5000, none⟩, ⟨⟨"main.main", 100⟩, 500, [], []⟩⟩
    rfl (by decide) (by decide)
  exact ⟨h.1, h.2 ⟨"main.fib", 200⟩ (by decide) (by decide) (by decide)⟩

end Tgo
